import Mathlib

/-!
Verification development for `wikimapper` (`src/wikimapper/mapper.py`).

The module is a read-only accessor over a single SQLite table `mapping`
with columns `wikipedia_id` (integer, nullable), `wikipedia_title`
(string, not null) and `wikidata_id` (string, nullable).

Embedding choices:
* a database state is a `Table`, the list of rows of the `mapping` table
  in rowid (scan) order; nullable columns are `Option`-valued;
* a plain `SELECT ... WHERE p` scans the table in order and returns the
  matching rows, so `fetchone` is `List.find?` and `fetchall` is
  `List.filter`;
* `SELECT DISTINCT` is modelled by `distinctList`, which keeps the first
  occurrence of each value in scan order;
* the connection lifecycle of the `with sqlite3.connect(...)` blocks is
  modelled separately by an event trace (see `ConnEv` below).
-/

set_option autoImplicit false

/-- A row of the `mapping` table: `(wikipedia_id, wikipedia_title, wikidata_id)`,
with the two nullable columns `Option`-valued. -/
structure Row where
  wikipedia_id : Option Int
  wikipedia_title : String
  wikidata_id : Option String
  deriving DecidableEq, Repr

/-- A database state: the rows of the `mapping` table in scan (rowid) order. -/
abbrev Table := List Row

/-- Model of `SELECT DISTINCT`: deduplicate a list of result values keeping
the first occurrence of each, in scan order. -/
def distinctList {α : Type} [DecidableEq α] : List α → List α
  | [] => []
  | a :: l => a :: (distinctList l).filter (fun b => b ≠ a)

/-- `WikiMapper.__init__` only stores the path; no I/O happens at construction. -/
structure WikiMapper where
  path_to_db : String

/-- `WikiMapper.title_to_id`: executes
`SELECT wikidata_id FROM mapping WHERE wikipedia_title=?`, takes `fetchone()`
(the first matching row, whose single selected column is the nullable
`wikidata_id`), and returns it when the row exists and the value is non-null,
else `None`. -/
def title_to_id (db : Table) (page_title : String) : Option String :=
  let result : Option (Option String) :=
    (db.find? (fun r => r.wikipedia_title = page_title)).map (fun r => r.wikidata_id)
  match result with
  | some (some q) => some q
  | _ => none

/-- Model of Python's `wiki_url.rsplit("/", 1)[-1]`: the suffix of the string
after the last `'/'`, or the whole string when it has no `'/'`. -/
def rsplitLast (s : String) : String :=
  ⟨(s.data.reverse.takeWhile (fun c => c ≠ '/')).reverse⟩

/-- `WikiMapper.url_to_id`: `title = wiki_url.rsplit("/", 1)[-1]` then
`self.title_to_id(title)`. -/
def url_to_id (db : Table) (wiki_url : String) : Option String :=
  title_to_id db (rsplitLast wiki_url)

/-- `WikiMapper.id_to_title`: executes
`SELECT DISTINCT wikipedia_title FROM mapping WHERE wikidata_id =?`,
takes `fetchall()`, and returns `results[0][0]` when `len(results) >= 1`,
else `None`. -/
def id_to_title (db : Table) (wikidata_id : String) : Option String :=
  let results : List String :=
    distinctList ((db.filter (fun r => r.wikidata_id = some wikidata_id)).map
      (fun r => r.wikipedia_title))
  match results with
  | t :: _ => some t
  | [] => none

/-- `WikiMapper.get_full_mapping`: executes
`SELECT DISTINCT wikipedia_title, wikidata_id FROM mapping WHERE wikidata_id IS NOT NULL`
and returns `fetchall()`. Result rows are `(wikipedia_title, wikidata_id)`
pairs with the nullable column kept `Option`-valued. -/
def get_full_mapping (db : Table) : List (String × Option String) :=
  distinctList ((db.filter (fun r => r.wikidata_id ≠ none)).map
    (fun r => (r.wikipedia_title, r.wikidata_id)))

/-- `WikiMapper.get_full_mapping_with_pid`: executes
`SELECT DISTINCT wikipedia_id, wikipedia_title, wikidata_id FROM mapping WHERE wikidata_id IS NOT NULL`
and returns `fetchall()`. -/
def get_full_mapping_with_pid (db : Table) :
    List (Option Int × String × Option String) :=
  distinctList ((db.filter (fun r => r.wikidata_id ≠ none)).map
    (fun r => (r.wikipedia_id, r.wikipedia_title, r.wikidata_id)))

/-- The example table of the specification:
rows `(1, "Manatee", "Q82893")`, `(2, "Fermat's_Last_Theorem", "Q35157")`,
`(3, "Foo", NULL)`. -/
def exampleDb : Table :=
  [ ⟨some 1, "Manatee", some "Q82893"⟩,
    ⟨some 2, "Fermat\x27s_Last_Theorem", some "Q35157"⟩,
    ⟨some 3, "Foo", none⟩ ]

/-- Connection-lifecycle events of one method call.  `sqlite3.connect` opens a
connection (`openConn`); inside the `with` block the method runs one read-only
`execute`/fetch (`execRead`); on leaving the `with` block,
`sqlite3.Connection.__exit__` commits the open transaction on normal exit
(`commitTx`) or rolls it back on an exception (`rollbackTx`).  Per the
documented semantics of the `sqlite3` context manager it does not close the
connection, so a `closeConn` event would only arise from an explicit
`conn.close()` call, which the source never makes. -/
inductive ConnEv where
  | openConn
  | execRead
  | commitTx
  | rollbackTx
  | closeConn
  deriving DecidableEq, Repr

/-- The shape of `with sqlite3.connect(self._path_to_db) as conn: <body>` on the
normal (non-raising) path: open the connection, run the body's events, commit on
exit.  No `closeConn` is appended, because the `sqlite3` connection context
manager commits or rolls back but does not close the connection. -/
def withConnect (body : List ConnEv) : List ConnEv :=
  ConnEv.openConn :: body ++ [ConnEv.commitTx]

/-- Stateful view of `title_to_id`: the value returned, the table after the
call, and the connection-event trace.  The body executes one read-only SELECT,
which leaves the table as it is. -/
def title_to_id_run (db : Table) (page_title : String) :
    Option String × Table × List ConnEv :=
  (title_to_id db page_title, db, withConnect [ConnEv.execRead])

/-- Stateful view of `url_to_id` (its single connection is the one opened by
the delegated `title_to_id` call). -/
def url_to_id_run (db : Table) (wiki_url : String) :
    Option String × Table × List ConnEv :=
  (url_to_id db wiki_url, db, withConnect [ConnEv.execRead])

/-- Stateful view of `id_to_title`. -/
def id_to_title_run (db : Table) (wikidata_id : String) :
    Option String × Table × List ConnEv :=
  (id_to_title db wikidata_id, db, withConnect [ConnEv.execRead])

/-- Stateful view of `get_full_mapping`. -/
def get_full_mapping_run (db : Table) :
    List (String × Option String) × Table × List ConnEv :=
  (get_full_mapping db, db, withConnect [ConnEv.execRead])

/-- Stateful view of `get_full_mapping_with_pid`. -/
def get_full_mapping_with_pid_run (db : Table) :
    List (Option Int × String × Option String) × Table × List ConnEv :=
  (get_full_mapping_with_pid db, db, withConnect [ConnEv.execRead])

/-- Stateful view of `WikiMapper.__init__`: it stores the path, touches no
table and opens no connection. -/
def wikiMapper_init_run (path : String) (db : Table) :
    WikiMapper × Table × List ConnEv :=
  (⟨path⟩, db, [])

/-- A table in which the same title occurs in two rows carrying two different
non-null wikidata ids. -/
def dupTitleDb : Table :=
  [ ⟨some 1, "A", some "Q1"⟩, ⟨some 2, "A", some "Q2"⟩ ]

/-- A table with two rows that agree on title and wikidata id but differ in
page id. -/
def dupPairDb : Table :=
  [ ⟨some 1, "A", some "Q1"⟩, ⟨some 2, "A", some "Q1"⟩ ]

/-- A table in which one wikidata id has two associated titles. -/
def multiTitleDb : Table :=
  [ ⟨some 1, "A", some "Q7"⟩, ⟨some 2, "B", some "Q7"⟩ ]

theorem mem_distinctList {α : Type} [DecidableEq α] (a : α) (l : List α) :
    a ∈ distinctList l ↔ a ∈ l := by
  induction l with
  | nil => simp [distinctList]
  | cons b l ih =>
    by_cases h : a = b
    · simp [distinctList, h]
    · simp [distinctList, List.mem_filter, ih, h]

theorem nodup_distinctList {α : Type} [DecidableEq α] (l : List α) :
    (distinctList l).Nodup := by
  induction l with
  | nil => simp [distinctList]
  | cons a l ih =>
    refine List.nodup_cons.mpr ⟨fun h => ?_, ih.filter _⟩
    have := (List.mem_filter.mp h).2
    simp at this

theorem distinctList_ne_nil {α : Type} [DecidableEq α] {l : List α}
    (h : l ≠ []) : distinctList l ≠ [] := by
  cases l with
  | nil => exact absurd rfl h
  | cons a l => simp [distinctList]

theorem takeWhile_append_sat {α : Type} (p : α → Bool) (l rest : List α) (x : α)
    (hl : ∀ c ∈ l, p c = true) (hx : p x = false) :
    (l ++ x :: rest).takeWhile p = l := by
  induction l with
  | nil => simp [List.takeWhile_cons, hx]
  | cons a l ih =>
    have ha : p a = true := hl a (List.mem_cons_self a l)
    simp only [List.cons_append, List.takeWhile_cons, ha, if_true]
    have : ∀ c ∈ l, p c = true := fun c hc => hl c (List.mem_cons_of_mem a hc)
    simp [ih this]

theorem takeWhile_of_all_sat {α : Type} (p : α → Bool) (l : List α)
    (hl : ∀ c ∈ l, p c = true) : l.takeWhile p = l := by
  induction l with
  | nil => rfl
  | cons a l ih =>
    have ha : p a = true := hl a (List.mem_cons_self a l)
    have : ∀ c ∈ l, p c = true := fun c hc => hl c (List.mem_cons_of_mem a hc)
    simp [List.takeWhile_cons, ha, ih this]

theorem rsplitLast_of_split (pre seg : List Char) (s : String)
    (hs : s.data = pre ++ '/' :: seg) (hseg : '/' ∉ seg) :
    rsplitLast s = ⟨seg⟩ := by
  unfold rsplitLast
  rw [hs]
  have hrev : (pre ++ '/' :: seg).reverse = seg.reverse ++ '/' :: pre.reverse := by
    simp
  rw [hrev]
  have hall : ∀ c ∈ seg.reverse, (decide (c ≠ '/')) = true := by
    intro c hc
    have : c ∈ seg := List.mem_reverse.mp hc
    simp only [decide_eq_true_iff]
    intro hcontra
    exact hseg (hcontra ▸ this)
  have := takeWhile_append_sat (fun c => decide (c ≠ '/')) seg.reverse pre.reverse '/'
    hall (by simp)
  rw [this, List.reverse_reverse]

theorem rsplitLast_no_slash (s : String) (h : '/' ∉ s.data) :
    rsplitLast s = s := by
  unfold rsplitLast
  have hall : ∀ c ∈ s.data.reverse, (decide (c ≠ '/')) = true := by
    intro c hc
    have : c ∈ s.data := List.mem_reverse.mp hc
    simp only [decide_eq_true_iff]
    intro hcontra
    exact h (hcontra ▸ this)
  rw [takeWhile_of_all_sat _ _ hall, List.reverse_reverse]

example : title_to_id exampleDb "Manatee" = some "Q82893" := by decide
example : title_to_id exampleDb "Foo" = none := by decide
example : title_to_id exampleDb "Bar" = none := by decide
example : rsplitLast "https://en.wikipedia.org/wiki/Manatee" = "Manatee" := by decide
example : id_to_title exampleDb "Q35157" = some "Fermat\x27s_Last_Theorem" := by decide
example : get_full_mapping exampleDb =
    [("Manatee", some "Q82893"), ("Fermat\x27s_Last_Theorem", some "Q35157")] := by decide

/-- C1 counterexample: in a table where the title `"A"` occurs in two rows with
the distinct non-null wikidata ids `"Q1"` and `"Q2"`, the title occurs in a row
whose wikidata_id is `"Q2"`, yet `title_to_id "A"` does not return `"Q2"` (the
query's `fetchone()` returns the first matching row, whose id is `"Q1"`). -/
theorem title_to_id_duplicate_title_cex :
    (∃ r ∈ dupTitleDb, r.wikipedia_title = "A" ∧ r.wikidata_id = some "Q2") ∧
    title_to_id dupTitleDb "A" ≠ some "Q2" := by
  constructor
  · exact ⟨⟨some 2, "A", some "Q2"⟩, by decide, rfl, rfl⟩
  · decide

/-- C1 (amended): for every database state and title, if the first row in scan
order whose `wikipedia_title` equals the title has a non-null `wikidata_id`,
then `title_to_id` returns that `wikidata_id`.  (In particular this covers
every title occurring in exactly one row with non-null id.) -/
theorem title_to_id_first_match (db : Table) (t : String) (r : Row) (q : String)
    (hf : db.find? (fun x => x.wikipedia_title = t) = some r)
    (hq : r.wikidata_id = some q) :
    title_to_id db t = some q := by
  simp [title_to_id, hf, hq]

/-- C1 witness: on the specification's example table, the first (only) row
titled `"Manatee"` has wikidata id `"Q82893"` and `title_to_id` returns it. -/
theorem title_to_id_first_match_witness :
    title_to_id exampleDb "Manatee" = some "Q82893" :=
  title_to_id_first_match exampleDb "Manatee" ⟨some 1, "Manatee", some "Q82893"⟩
    "Q82893" (by decide) rfl

/-- C3: `title_to_id` returns `none` whenever no row carries the title, and
also whenever the row found by the query (the first match) has a null
`wikidata_id`. -/
theorem title_to_id_not_found (db : Table) (t : String) :
    ((∀ r ∈ db, r.wikipedia_title ≠ t) → title_to_id db t = none) ∧
    (∀ r : Row, db.find? (fun x => x.wikipedia_title = t) = some r →
      r.wikidata_id = none → title_to_id db t = none) := by
  constructor
  · intro h
    have hf : db.find? (fun x => x.wikipedia_title = t) = none := by
      rw [List.find?_eq_none]
      intro x hx
      simpa using h x hx
    simp [title_to_id, hf]
  · intro r hf hq
    simp [title_to_id, hf, hq]

/-- C3 witness: on the example table, `"Foo"` is present but its wikidata id is
null, and `"Bar"` is absent; `title_to_id` returns `none` for both. -/
theorem title_to_id_not_found_witness :
    title_to_id exampleDb "Foo" = none ∧ title_to_id exampleDb "Bar" = none :=
  ⟨(title_to_id_not_found exampleDb "Foo").2 ⟨some 3, "Foo", none⟩ (by decide) rfl,
   (title_to_id_not_found exampleDb "Bar").1 (by decide)⟩

/-- C5: for every database state and every input whose character list splits as
`pre ++ '/' :: seg` with no `'/'` in `seg` (so `seg` is the substring after the
last `'/'`), `url_to_id` returns exactly `title_to_id` applied to `seg`. -/
theorem url_to_id_delegates (db : Table) (url : String) (pre seg : List Char)
    (hs : url.data = pre ++ '/' :: seg) (hseg : '/' ∉ seg) :
    url_to_id db url = title_to_id db ⟨seg⟩ := by
  unfold url_to_id
  rw [rsplitLast_of_split pre seg url hs hseg]

/-- C5 witness: `url_to_id` on the Manatee URL agrees with `title_to_id` on
`"Manatee"` (on the example table, where both return `some "Q82893"`). -/
theorem url_to_id_delegates_witness :
    url_to_id exampleDb "https://en.wikipedia.org/wiki/Manatee" =
      title_to_id exampleDb "Manatee" :=
  url_to_id_delegates exampleDb "https://en.wikipedia.org/wiki/Manatee"
    "https://en.wikipedia.org/wiki".data "Manatee".data (by decide) (by decide)

/-- C10: `url_to_id` is total, and on any input containing no `'/'` the whole
input is used as the title: `url_to_id db s = title_to_id db s`. -/
theorem url_to_id_total_no_slash (db : Table) (s : String) (h : '/' ∉ s.data) :
    url_to_id db s = title_to_id db s := by
  unfold url_to_id
  rw [rsplitLast_no_slash s h]

/-- C10 witness: the slash-free input `"Manatee"` is looked up as-is. -/
theorem url_to_id_total_no_slash_witness :
    url_to_id exampleDb "Manatee" = title_to_id exampleDb "Manatee" :=
  url_to_id_total_no_slash exampleDb "Manatee" (by decide)

/-- C2 counterexample: on a concrete call, the connection-event trace of
`title_to_id` is open / read / commit with no close event — the `with
sqlite3.connect(...)` block commits the transaction on exit but does not close
the connection, so the connection is not released before the call returns. -/
theorem connection_close_missing_cex :
    (title_to_id_run exampleDb "Manatee").2.2 =
      [ConnEv.openConn, ConnEv.execRead, ConnEv.commitTx] ∧
    ConnEv.closeConn ∉ (title_to_id_run exampleDb "Manatee").2.2 := by
  decide

theorem count_openConn_withConnect :
    (withConnect [ConnEv.execRead]).count ConnEv.openConn = 1 := by decide

theorem closeConn_not_mem_withConnect :
    ConnEv.closeConn ∉ withConnect [ConnEv.execRead] := by decide

/-- C2 (amended): each of the five query operations opens exactly one
connection per call, but the connection is not closed before the call returns:
the `with` block only commits (or rolls back) the transaction on exit. -/
theorem connection_open_once_not_closed (db : Table) (t u q : String) :
    ((title_to_id_run db t).2.2.count ConnEv.openConn = 1 ∧
      ConnEv.closeConn ∉ (title_to_id_run db t).2.2) ∧
    ((url_to_id_run db u).2.2.count ConnEv.openConn = 1 ∧
      ConnEv.closeConn ∉ (url_to_id_run db u).2.2) ∧
    ((id_to_title_run db q).2.2.count ConnEv.openConn = 1 ∧
      ConnEv.closeConn ∉ (id_to_title_run db q).2.2) ∧
    ((get_full_mapping_run db).2.2.count ConnEv.openConn = 1 ∧
      ConnEv.closeConn ∉ (get_full_mapping_run db).2.2) ∧
    ((get_full_mapping_with_pid_run db).2.2.count ConnEv.openConn = 1 ∧
      ConnEv.closeConn ∉ (get_full_mapping_with_pid_run db).2.2) :=
  ⟨⟨count_openConn_withConnect, closeConn_not_mem_withConnect⟩,
    ⟨count_openConn_withConnect, closeConn_not_mem_withConnect⟩,
    ⟨count_openConn_withConnect, closeConn_not_mem_withConnect⟩,
    ⟨count_openConn_withConnect, closeConn_not_mem_withConnect⟩,
    ⟨count_openConn_withConnect, closeConn_not_mem_withConnect⟩⟩

/-- C2 witness: the amended property instantiated for `title_to_id` on the
example table. -/
theorem connection_open_once_not_closed_witness :
    (title_to_id_run exampleDb "Manatee").2.2.count ConnEv.openConn = 1 ∧
    ConnEv.closeConn ∉ (title_to_id_run exampleDb "Manatee").2.2 :=
  (connection_open_once_not_closed exampleDb "Manatee" "u" "q").1

/-- C4: if at least one row carries the queried wikidata id, `id_to_title`
returns some title that is associated with that id in the table; if no row
matches, it returns `none`. -/
theorem id_to_title_membership (db : Table) (q : String) :
    ((∃ r ∈ db, r.wikidata_id = some q) →
      ∃ t, id_to_title db q = some t ∧
        ∃ r ∈ db, r.wikipedia_title = t ∧ r.wikidata_id = some q) ∧
    ((∀ r ∈ db, r.wikidata_id ≠ some q) → id_to_title db q = none) := by
  constructor
  · rintro ⟨r, hr, hq⟩
    have hmem : r ∈ db.filter (fun x => x.wikidata_id = some q) :=
      List.mem_filter.mpr ⟨hr, by simp [hq]⟩
    have hne :
        (db.filter (fun x => x.wikidata_id = some q)).map
          (fun x => x.wikipedia_title) ≠ [] := by
      intro hnil
      rw [List.map_eq_nil_iff] at hnil
      rw [hnil] at hmem
      exact absurd hmem (List.not_mem_nil r)
    have hdn := distinctList_ne_nil hne
    cases hd : distinctList
        ((db.filter (fun x => x.wikidata_id = some q)).map
          (fun x => x.wikipedia_title)) with
    | nil => exact absurd hd hdn
    | cons t rest =>
      refine ⟨t, by simp [id_to_title, hd], ?_⟩
      have ht : t ∈ distinctList
          ((db.filter (fun x => x.wikidata_id = some q)).map
            (fun x => x.wikipedia_title)) := by
        rw [hd]; exact List.mem_cons_self t rest
      rw [mem_distinctList, List.mem_map] at ht
      obtain ⟨x, hx, hxt⟩ := ht
      rw [List.mem_filter] at hx
      exact ⟨x, hx.1, hxt, by simpa using hx.2⟩
  · intro h
    have hnil : db.filter (fun x => x.wikidata_id = some q) = [] := by
      rw [List.filter_eq_nil_iff]
      intro a ha
      simp [h a ha]
    simp [id_to_title, hnil, distinctList]

/-- C4 witness: on a table where `"Q7"` has the two titles `"A"` and `"B"`,
`id_to_title` returns one of its associated titles; and `id_to_title` on an
id absent from the example table returns `none`. -/
theorem id_to_title_membership_witness :
    (∃ t, id_to_title multiTitleDb "Q7" = some t ∧
      ∃ r ∈ multiTitleDb, r.wikipedia_title = t ∧ r.wikidata_id = some "Q7") ∧
    id_to_title exampleDb "Q99" = none :=
  ⟨(id_to_title_membership multiTitleDb "Q7").1
      ⟨⟨some 1, "A", some "Q7"⟩, by decide, rfl⟩,
    (id_to_title_membership exampleDb "Q99").2 (by decide)⟩

/-- C6: the result of `get_full_mapping_with_pid` projected onto its
(title, wikidata_id) components equals the result of `get_full_mapping` as a
result set (same members). -/
theorem full_mapping_projection_agrees (db : Table) (p : String × Option String) :
    p ∈ (get_full_mapping_with_pid db).map (fun x => (x.2.1, x.2.2)) ↔
      p ∈ get_full_mapping db := by
  simp only [get_full_mapping, get_full_mapping_with_pid, List.mem_map,
    mem_distinctList, List.mem_filter]
  constructor
  · rintro ⟨x, ⟨r, hr, hx⟩, hp⟩
    refine ⟨r, hr, ?_⟩
    rw [← hx] at hp
    simpa using hp
  · rintro ⟨r, hr, hp⟩
    exact ⟨(r.wikipedia_id, r.wikipedia_title, r.wikidata_id), ⟨r, hr, rfl⟩,
      by simpa using hp⟩

/-- C6 witness: the pair for Manatee appears in the projection of the
with-page-id result on the example table. -/
theorem full_mapping_projection_agrees_witness :
    ("Manatee", some "Q82893") ∈
      (get_full_mapping_with_pid exampleDb).map (fun x => (x.2.1, x.2.2)) :=
  (full_mapping_projection_agrees exampleDb ("Manatee", some "Q82893")).mpr
    (by decide)

/-- C7: `get_full_mapping` returns exactly the distinct (title, wikidata_id)
pairs with non-null id: the result has no duplicate pair, no pair with a null
id, and contains a pair `(t, some q)` exactly when some row of the table has
title `t` and wikidata id `q`. -/
theorem get_full_mapping_exact (db : Table) :
    (get_full_mapping db).Nodup ∧
    (∀ p ∈ get_full_mapping db, p.2 ≠ none) ∧
    (∀ t q, (t, some q) ∈ get_full_mapping db ↔
      ∃ r ∈ db, r.wikipedia_title = t ∧ r.wikidata_id = some q) := by
  refine ⟨nodup_distinctList _, ?_, ?_⟩
  · intro p hp
    simp only [get_full_mapping, mem_distinctList, List.mem_map,
      List.mem_filter] at hp
    obtain ⟨r, ⟨_, hq⟩, hrp⟩ := hp
    rw [← hrp]
    simpa using hq
  · intro t q
    simp only [get_full_mapping, mem_distinctList, List.mem_map, List.mem_filter]
    constructor
    · rintro ⟨r, ⟨hr, _⟩, heq⟩
      rw [Prod.mk.injEq] at heq
      exact ⟨r, hr, heq.1, heq.2⟩
    · rintro ⟨r, hr, ht, hq⟩
      exact ⟨r, ⟨hr, by simp [hq]⟩, by rw [ht, hq]⟩

/-- C7 witness: on the example table the result is duplicate-free and contains
the Manatee pair; the row with a null wikidata id contributes nothing. -/
theorem get_full_mapping_exact_witness :
    (get_full_mapping exampleDb).Nodup ∧
    ("Manatee", some "Q82893") ∈ get_full_mapping exampleDb :=
  ⟨(get_full_mapping_exact exampleDb).1,
    ((get_full_mapping_exact exampleDb).2.2 "Manatee" "Q82893").mpr
      ⟨⟨some 1, "Manatee", some "Q82893"⟩, by decide, rfl, rfl⟩⟩

/-- C8: construction and all five query operations leave the table unchanged:
the table component of every stateful run equals the input table. -/
theorem queries_leave_table_unchanged (db : Table) (path t u q : String) :
    (wikiMapper_init_run path db).2.1 = db ∧
    (title_to_id_run db t).2.1 = db ∧
    (url_to_id_run db u).2.1 = db ∧
    (id_to_title_run db q).2.1 = db ∧
    (get_full_mapping_run db).2.1 = db ∧
    (get_full_mapping_with_pid_run db).2.1 = db :=
  ⟨rfl, rfl, rfl, rfl, rfl, rfl⟩

/-- C9: a database state on which `get_full_mapping_with_pid` returns two
triples agreeing on (title, wikidata_id) but with different page ids: its
distinctness is over full triples, the projection onto (title, id) contains a
duplicate (count 2), while `get_full_mapping` keeps a single copy (count 1),
so the two agree as sets but not as duplicate-free lists. -/
theorem with_pid_distinct_over_triples_only :
    get_full_mapping_with_pid dupPairDb =
      [(some 1, "A", some "Q1"), (some 2, "A", some "Q1")] ∧
    ((get_full_mapping_with_pid dupPairDb).map
        (fun x => (x.2.1, x.2.2))).count ("A", some "Q1") = 2 ∧
    (get_full_mapping dupPairDb).count ("A", some "Q1") = 1 := by
  decide
